import Mathlib

/-!
Verification of `lassl`'s `DatasetBlender` (src/lassl/blender.py).

The Python class blends N source datasets into one virtual dataset:
* `_normalize_weight` normalizes a raw weight list (asserting positive sum),
* `_build_blending_indices` greedily assigns each virtual position to the
  source whose target allocation is currently most under-served,
* `__getitem__` resolves a virtual index to a source sample, wrapping the
  per-source sample counter modulo the source length.

Python floats are modelled as exact rationals `ℚ`; Python lists as `List`;
raised exceptions as `Except`/`Option` results.  Numpy's negative-index
semantics for 1-d arrays (an index `idx` with `-len ≤ idx < 0` addresses
`len + idx`, anything further out of range raises `IndexError`) are modelled
explicitly in `DatasetBlender.getitem`.
-/

namespace Lassl

/-- The error term `weights[k] * max(i, 1.0) - current_samples[k]` computed in
the inner loop of `_build_blending_indices` (blender.py lines 120-125). -/
def srcError (weights : List ℚ) (current_samples : List ℕ) (i : ℕ) (k : ℕ) : ℚ :=
  weights.getD k 0 * max (i : ℚ) 1 - (current_samples.getD k 0 : ℚ)

/-- The inner argmax loop of `_build_blending_indices` (lines 121-128):
start with index 0 and its error, scan indices `0, …, num_datasets - 1`,
replacing the incumbent only on a strictly larger error.  Returns the chosen
index together with its error. -/
def pickIndex (weights : List ℚ) (current_samples : List ℕ) (i : ℕ) : ℕ × ℚ :=
  (List.range weights.length).foldl
    (fun acc k =>
      if srcError weights current_samples i k > acc.2 then
        (k, srcError weights current_samples i k)
      else acc)
    (0, srcError weights current_samples i 0)

/-- The mutable state of `_build_blending_indices`: the two output arrays
(grown one slot per step) and the `current_samples` counters. -/
structure BuildState where
  dataset_index : List ℕ
  dataset_sample_index : List ℕ
  current_samples : List ℕ
deriving DecidableEq

/-- One iteration of the `for sample_idx in range(size)` loop
(lines 119-132): pick the argmax source, record it and its running sample
count, and increment that counter. -/
def buildStep (weights : List ℚ) (st : BuildState) (i : ℕ) : BuildState :=
  let k := (pickIndex weights st.current_samples i).1
  { dataset_index := st.dataset_index ++ [k]
    dataset_sample_index := st.dataset_sample_index ++ [st.current_samples.getD k 0]
    current_samples := st.current_samples.set k (st.current_samples.getD k 0 + 1) }

/-- The state of `_build_blending_indices` after the first `i` loop
iterations, starting from all-zero counters. -/
def buildAux (weights : List ℚ) : ℕ → BuildState
  | 0 => ⟨[], [], List.replicate weights.length 0⟩
  | i + 1 => buildStep weights (buildAux weights i) i

/-- `DatasetBlender._build_blending_indices` (lines 108-132): run the greedy
loop for `size` steps. -/
def build_blending_indices (weights : List ℚ) (size : ℕ) : BuildState :=
  buildAux weights size

/-- `DatasetBlender._normalize_weight` (lines 134-149): `assert sum > 0.0`
(modelled as `none` on failure, the spec's `InvalidWeightError`), then divide
each weight by the sum. -/
def normalize_weight (weights : List ℚ) : Option (List ℚ) :=
  let sum_weights := weights.sum
  if 0 < sum_weights then some (weights.map (fun w => w / sum_weights)) else none

/-- The failure modes of `DatasetBlender.__init__`, named as in the spec's
error taxonomy (`ZeroDivisionError` is Python's, raised by `length / self.size`). -/
inductive BlendError
  | configurationError
  | invalidWeightError
  | zeroDivisionError
deriving DecidableEq

/-- The automatic weight derivation `[length / self.size for length in lengths]`
(line 75).  Each element performs a division, so a zero `size` raises
`ZeroDivisionError` exactly when `lengths` is nonempty. -/
def autoWeights (lengths : List ℕ) (size : ℕ) : Except BlendError (List ℚ) :=
  lengths.mapM (fun l : ℕ =>
    if size = 0 then Except.error BlendError.zeroDivisionError
    else Except.ok ((l : ℚ) / (size : ℚ)))

/-- The constructed blender object: the source datasets, the stored `size`,
and the two index arrays. -/
structure DatasetBlender (α : Type) where
  datasets : List (List α)
  size : ℕ
  dataset_index : List ℕ
  dataset_sample_index : List ℕ
deriving DecidableEq

/-- `DatasetBlender.__init__` (lines 57-97): compute the source lengths and
their sum `size`, derive weights when absent (propagating `ZeroDivisionError`),
assert the weight count matches the dataset count, normalize (propagating the
weight-sum failure), and build the two index arrays. -/
def initBlender {α : Type} (datasets : List (List α)) (weights? : Option (List ℚ)) :
    Except BlendError (DatasetBlender α) :=
  let lengths := datasets.map List.length
  let size := lengths.sum
  match (match weights? with
         | none => autoWeights lengths size
         | some ws => Except.ok ws) with
  | Except.error e => Except.error e
  | Except.ok weights =>
    if datasets.length = weights.length then
      match normalize_weight weights with
      | some nw =>
        let st := build_blending_indices nw size
        Except.ok ⟨datasets, size, st.dataset_index, st.dataset_sample_index⟩
      | none => Except.error BlendError.invalidWeightError
    else
      Except.error BlendError.configurationError

/-- `DatasetBlender.__len__` (lines 99-100). -/
def DatasetBlender.len {α : Type} (b : DatasetBlender α) : ℕ :=
  b.size

/-- The body of `DatasetBlender.__getitem__` (lines 102-106) once the raw
index has been resolved to a nonnegative position `i`: fetch
`dataset_index[i]`, the source list, `dataset_sample_index[i]`, and return
`datasets[dataset_idx][sample_idx % max(len(dataset), 1)]`.  Any out-of-range
access yields `none` (Python `IndexError`). -/
def DatasetBlender.resolve {α : Type} (b : DatasetBlender α) (i : ℕ) : Option α :=
  match b.dataset_index.get? i with
  | none => none
  | some dataset_idx =>
    match b.datasets.get? dataset_idx with
    | none => none
    | some ds =>
      match b.dataset_sample_index.get? i with
      | none => none
      | some sample_idx => ds.get? (sample_idx % max ds.length 1)

/-- `DatasetBlender.__getitem__` (lines 102-106) with numpy's index semantics
on the length-`size` arrays: `0 ≤ idx < size` addresses `idx`,
`-size ≤ idx < 0` addresses `size + idx`, anything else raises `IndexError`
(modelled as `none`). -/
def DatasetBlender.getitem {α : Type} (b : DatasetBlender α) (idx : ℤ) : Option α :=
  if 0 ≤ idx ∧ idx < (b.size : ℤ) then
    b.resolve idx.toNat
  else if -(b.size : ℤ) ≤ idx ∧ idx < 0 then
    b.resolve (idx + (b.size : ℤ)).toNat
  else
    none

/-! ### Integer-scaled companion of the builder

Rational-number kernel reduction is impractical, so for evaluating the builder
on concrete weight vectors we use an integer-scaled companion: weights
`nums[k] / D` with a common positive denominator `D` produce exactly the same
run, because the greedy loop only ever compares errors, and
`(a / D) * s - c > (b / D) * s - c' ↔ a * s - c * D > b * s - c' * D`.
The equivalence is proved in `buildAux_eq_buildAuxZ`. -/

/-- `srcError` scaled through by the common denominator `D`. -/
def srcErrorZ (nums : List ℤ) (D : ℤ) (current_samples : List ℕ) (i : ℕ) (k : ℕ) : ℤ :=
  nums.getD k 0 * max (i : ℤ) 1 - (current_samples.getD k 0 : ℤ) * D

/-- Index component of the argmax loop over the scaled errors. -/
def pickIndexZ (nums : List ℤ) (D : ℤ) (current_samples : List ℕ) (i : ℕ) : ℕ :=
  (List.range nums.length).foldl
    (fun b k =>
      if srcErrorZ nums D current_samples i k > srcErrorZ nums D current_samples i b then k
      else b)
    0

/-- One step of the builder, on the scaled errors. -/
def buildStepZ (nums : List ℤ) (D : ℤ) (st : BuildState) (i : ℕ) : BuildState :=
  let k := pickIndexZ nums D st.current_samples i
  { dataset_index := st.dataset_index ++ [k]
    dataset_sample_index := st.dataset_sample_index ++ [st.current_samples.getD k 0]
    current_samples := st.current_samples.set k (st.current_samples.getD k 0 + 1) }

/-- The builder run on the scaled errors. -/
def buildAuxZ (nums : List ℤ) (D : ℤ) : ℕ → BuildState
  | 0 => ⟨[], [], List.replicate nums.length 0⟩
  | i + 1 => buildStepZ nums D (buildAuxZ nums D i) i

example : (buildAuxZ [1, 1] 2 4).dataset_index = [0, 1, 0, 1] := by decide

example : (buildAuxZ [49, 1, 1, 1, 1] 53 33).dataset_index.count 0 = 29 := by decide

/-! ### The argmax fold -/

/-- The index computed by a strict-improvement scan of `err 0, …, err (n-1)`
starting from incumbent `j0`. -/
def selectFold {β : Type} [LinearOrder β] (err : ℕ → β) (n : ℕ) (j0 : ℕ) : ℕ :=
  (List.range n).foldl (fun b k => if err k > err b then k else b) j0

lemma selectFold_succ {β : Type} [LinearOrder β] (err : ℕ → β) (n : ℕ) (j0 : ℕ) :
    selectFold err (n + 1) j0
      = if err n > err (selectFold err n j0) then n else selectFold err n j0 := by
  rw [selectFold, List.range_succ, List.foldl_append]
  rfl

lemma foldl_pick_pair {β : Type} [LinearOrder β] (err : ℕ → β) (n : ℕ) (j0 : ℕ) :
    (List.range n).foldl (fun acc k => if err k > acc.2 then (k, err k) else acc) (j0, err j0)
      = (selectFold err n j0, err (selectFold err n j0)) := by
  induction n with
  | zero => simp [selectFold]
  | succ n ih =>
      rw [List.range_succ, List.foldl_append, ih, selectFold_succ]
      simp only [List.foldl_cons, List.foldl_nil]
      by_cases h : err n > err (selectFold err n j0)
      · rw [if_pos h, if_pos h]
      · rw [if_neg h, if_neg h]

lemma selectFold_zero_or_lt {β : Type} [LinearOrder β] (err : ℕ → β) (n : ℕ) (j0 : ℕ) :
    selectFold err n j0 = j0 ∨ selectFold err n j0 < n := by
  induction n with
  | zero => exact Or.inl rfl
  | succ n ih =>
      rw [selectFold_succ]
      by_cases h : err n > err (selectFold err n j0)
      · rw [if_pos h]
        exact Or.inr (Nat.lt_succ_self n)
      · rw [if_neg h]
        rcases ih with h' | h'
        · exact Or.inl h'
        · exact Or.inr (Nat.lt_succ_of_lt h')

lemma selectFold_le {β : Type} [LinearOrder β] (err : ℕ → β) (n : ℕ) (j0 : ℕ) :
    ∀ j < n, err j ≤ err (selectFold err n j0) := by
  induction n with
  | zero => intro j hj; omega
  | succ n ih =>
      intro j hj
      rw [selectFold_succ]
      by_cases h : err n > err (selectFold err n j0)
      · rw [if_pos h]
        rcases Nat.lt_succ_iff_lt_or_eq.mp hj with h' | h'
        · exact le_of_lt (lt_of_le_of_lt (ih j h') h)
        · exact le_of_eq (congrArg err h')
      · rw [if_neg h]
        rcases Nat.lt_succ_iff_lt_or_eq.mp hj with h' | h'
        · exact ih j h'
        · subst h'; exact le_of_not_lt h

lemma selectFold_lt_of_lt {β : Type} [LinearOrder β] (err : ℕ → β) (n : ℕ) :
    ∀ j < selectFold err n 0, err j < err (selectFold err n 0) := by
  induction n with
  | zero => intro j hj; simp [selectFold] at hj
  | succ n ih =>
      intro j hj
      rw [selectFold_succ] at hj ⊢
      by_cases h : err n > err (selectFold err n 0)
      · rw [if_pos h] at hj ⊢
        rcases Nat.lt_or_ge j n with h' | h'
        · exact lt_of_le_of_lt (selectFold_le err n 0 j h') h
        · omega
      · rw [if_neg h] at hj ⊢
        exact ih j hj

lemma selectFold_congr {β γ : Type} [LinearOrder β] [LinearOrder γ]
    (err : ℕ → β) (err' : ℕ → γ) (h : ∀ j k, err j < err k ↔ err' j < err' k)
    (n : ℕ) (j0 : ℕ) : selectFold err n j0 = selectFold err' n j0 := by
  induction n with
  | zero => rfl
  | succ n ih =>
      rw [selectFold_succ, selectFold_succ, ← ih]
      by_cases hc : err n > err (selectFold err n j0)
      · rw [if_pos hc, if_pos ((h _ _).mp hc)]
      · rw [if_neg hc, if_neg (fun hc' => hc ((h _ _).mpr hc'))]

lemma pickIndex_eq_selectFold (weights : List ℚ) (current_samples : List ℕ) (i : ℕ) :
    pickIndex weights current_samples i
      = (selectFold (srcError weights current_samples i) weights.length 0,
         srcError weights current_samples i
           (selectFold (srcError weights current_samples i) weights.length 0)) :=
  foldl_pick_pair (srcError weights current_samples i) weights.length 0

lemma pickIndexZ_eq_selectFold (nums : List ℤ) (D : ℤ) (current_samples : List ℕ) (i : ℕ) :
    pickIndexZ nums D current_samples i
      = selectFold (srcErrorZ nums D current_samples i) nums.length 0 :=
  rfl

/-! ### Small list helpers -/

lemma getD_set_self (l : List ℕ) (k v : ℕ) (h : k < l.length) :
    (l.set k v).getD k 0 = v := by
  induction l generalizing k with
  | nil => simp at h
  | cons a t ih =>
      cases k with
      | zero => rfl
      | succ k => exact ih k (by simpa using h)

lemma getD_set_ne (l : List ℕ) (k j v : ℕ) (h : j ≠ k) :
    (l.set k v).getD j 0 = l.getD j 0 := by
  induction l generalizing k j with
  | nil => simp
  | cons a t ih =>
      cases k with
      | zero =>
          cases j with
          | zero => exact absurd rfl h
          | succ j => rfl
      | succ k =>
          cases j with
          | zero => rfl
          | succ j => exact ih k j (fun hjk => h (congrArg Nat.succ hjk))

lemma sum_set_getD_succ (l : List ℕ) (k : ℕ) (h : k < l.length) :
    (l.set k (l.getD k 0 + 1)).sum = l.sum + 1 := by
  induction l generalizing k with
  | nil => simp at h
  | cons a t ih =>
      cases k with
      | zero => simp [List.sum_cons]; omega
      | succ k =>
          show (a :: t.set k (t.getD k 0 + 1)).sum = (a :: t).sum + 1
          rw [List.sum_cons, List.sum_cons, ih k (by simpa using h)]
          omega

lemma getD_replicate_zero (n k : ℕ) : (List.replicate n (0 : ℕ)).getD k 0 = 0 := by
  induction n generalizing k with
  | zero => simp
  | succ n ih =>
      cases k with
      | zero => rfl
      | succ k =>
          rw [List.replicate_succ, List.getD_cons_succ]
          exact ih k

/-! ### Invariants of the builder state -/

/-- The source chosen at step `i` of the build loop. -/
def pickAt (weights : List ℚ) (i : ℕ) : ℕ :=
  (pickIndex weights (buildAux weights i).current_samples i).1

lemma buildAux_di_succ (w : List ℚ) (i : ℕ) :
    (buildAux w (i + 1)).dataset_index
      = (buildAux w i).dataset_index ++ [pickAt w i] := rfl

lemma buildAux_si_succ (w : List ℚ) (i : ℕ) :
    (buildAux w (i + 1)).dataset_sample_index
      = (buildAux w i).dataset_sample_index
          ++ [(buildAux w i).current_samples.getD (pickAt w i) 0] := rfl

lemma buildAux_cur_succ (w : List ℚ) (i : ℕ) :
    (buildAux w (i + 1)).current_samples
      = (buildAux w i).current_samples.set (pickAt w i)
          ((buildAux w i).current_samples.getD (pickAt w i) 0 + 1) := rfl

lemma buildAux_di_length (w : List ℚ) (i : ℕ) :
    (buildAux w i).dataset_index.length = i := by
  induction i with
  | zero => rfl
  | succ i ih => simp [buildAux_di_succ, ih]

lemma buildAux_si_length (w : List ℚ) (i : ℕ) :
    (buildAux w i).dataset_sample_index.length = i := by
  induction i with
  | zero => rfl
  | succ i ih => simp [buildAux_si_succ, ih]

lemma buildAux_cur_length (w : List ℚ) (i : ℕ) :
    (buildAux w i).current_samples.length = w.length := by
  induction i with
  | zero => simp [buildAux]
  | succ i ih => simp [buildAux_cur_succ, ih]

lemma pickAt_lt (w : List ℚ) (hN : 0 < w.length) (i : ℕ) : pickAt w i < w.length := by
  rw [pickAt, pickIndex_eq_selectFold]
  rcases selectFold_zero_or_lt (srcError w (buildAux w i).current_samples i) w.length 0 with
    h | h
  · rw [h]; exact hN
  · exact h

lemma buildAux_cur_count (w : List ℚ) (hN : 0 < w.length) (i : ℕ) (k : ℕ) :
    (buildAux w i).current_samples.getD k 0 = (buildAux w i).dataset_index.count k := by
  induction i with
  | zero => simp [buildAux, getD_replicate_zero]
  | succ i ih =>
      rw [buildAux_cur_succ, buildAux_di_succ, List.count_append]
      by_cases hk : k = pickAt w i
      · subst hk
        rw [getD_set_self _ _ _ (by rw [buildAux_cur_length]; exact pickAt_lt w hN i), ih]
        simp
      · rw [getD_set_ne _ _ _ _ hk, ih, List.count_singleton',
          if_neg (fun h => hk h.symm)]
        omega

lemma buildAux_cur_sum (w : List ℚ) (hN : 0 < w.length) (i : ℕ) :
    (buildAux w i).current_samples.sum = i := by
  induction i with
  | zero => simp [buildAux]
  | succ i ih =>
      rw [buildAux_cur_succ,
        sum_set_getD_succ _ _ (by rw [buildAux_cur_length]; exact pickAt_lt w hN i), ih]

lemma buildAux_di_mem_lt (w : List ℚ) (hN : 0 < w.length) (i : ℕ) :
    ∀ x ∈ (buildAux w i).dataset_index, x < w.length := by
  induction i with
  | zero => simp [buildAux]
  | succ i ih =>
      rw [buildAux_di_succ]
      intro x hx
      rcases List.mem_append.mp hx with h | h
      · exact ih x h
      · rw [List.mem_singleton.mp h]
        exact pickAt_lt w hN i

lemma buildAux_di_getD_stable (w : List ℚ) (i S : ℕ) (hiS : i < S) :
    (buildAux w S).dataset_index.getD i 0 = pickAt w i := by
  induction S with
  | zero => omega
  | succ S ih =>
      rw [buildAux_di_succ]
      rcases Nat.lt_succ_iff_lt_or_eq.mp hiS with h | h
      · rw [List.getD_append _ _ _ _ (by rw [buildAux_di_length]; exact h)]
        exact ih h
      · subst h
        rw [List.getD_append_right _ _ _ _ (by rw [buildAux_di_length])]
        simp [buildAux_di_length]

lemma buildAux_si_getD_stable (w : List ℚ) (i S : ℕ) (hiS : i < S) :
    (buildAux w S).dataset_sample_index.getD i 0
      = (buildAux w i).current_samples.getD (pickAt w i) 0 := by
  induction S with
  | zero => omega
  | succ S ih =>
      rw [buildAux_si_succ]
      rcases Nat.lt_succ_iff_lt_or_eq.mp hiS with h | h
      · rw [List.getD_append _ _ _ _ (by rw [buildAux_si_length]; exact h)]
        exact ih h
      · subst h
        rw [List.getD_append_right _ _ _ _ (by rw [buildAux_si_length])]
        simp [buildAux_si_length]

lemma buildAux_di_take (w : List ℚ) (P S : ℕ) (hPS : P ≤ S) :
    (buildAux w S).dataset_index.take P = (buildAux w P).dataset_index := by
  induction S with
  | zero =>
      have : P = 0 := Nat.le_zero.mp hPS
      subst this; rfl
  | succ S ih =>
      by_cases h : P ≤ S
      · rw [buildAux_di_succ,
          List.take_append_of_le_length (by rw [buildAux_di_length]; exact h)]
        exact ih h
      · have hP : P = S + 1 := by omega
        subst hP
        exact List.take_of_length_le (by rw [buildAux_di_length])

/-! ### Sums over the state -/

lemma sum_range_getD {M : Type} [AddCommMonoid M] (l : List M) :
    ∑ j in Finset.range l.length, l.getD j 0 = l.sum := by
  induction l with
  | nil => simp
  | cons a t ih =>
      rw [List.length_cons, Finset.sum_range_succ']
      simp only [List.getD_cons_succ, List.getD_cons_zero, List.sum_cons]
      rw [ih]
      exact add_comm _ _

lemma getD_mem_of_lt {M : Type} [Inhabited M] (l : List M) (k : ℕ) (hk : k < l.length)
    (d : M) : l.getD k d ∈ l := by
  rw [List.getD_eq_getElem l d hk]
  exact List.getElem_mem hk

lemma getD_le_one (w : List ℚ) (hnn : ∀ x ∈ w, 0 ≤ x) (hsum : w.sum = 1)
    (k : ℕ) (hk : k < w.length) : w.getD k 0 ≤ 1 := by
  rw [← hsum, ← sum_range_getD]
  exact Finset.single_le_sum
    (fun j hj => hnn _ (getD_mem_of_lt w j (Finset.mem_range.mp hj) 0))
    (Finset.mem_range.mpr hk)

lemma sum_range_cast_cur (w : List ℚ) (hN : 0 < w.length) (i : ℕ) :
    ∑ j in Finset.range w.length, ((buildAux w i).current_samples.getD j 0 : ℚ) = (i : ℚ) := by
  rw [← Nat.cast_sum]
  have h1 : ∑ j in Finset.range w.length, (buildAux w i).current_samples.getD j 0
      = (buildAux w i).current_samples.sum := by
    rw [← buildAux_cur_length w i, sum_range_getD]
  rw [h1, buildAux_cur_sum w hN i]

lemma srcError_sum_zero (w : List ℚ) (hN : 0 < w.length) (hsum : w.sum = 1)
    (i : ℕ) (hi : 1 ≤ i) :
    ∑ j in Finset.range w.length, srcError w (buildAux w i).current_samples i j = 0 := by
  have hmax : max (i : ℚ) 1 = (i : ℚ) := max_eq_left (by exact_mod_cast hi)
  unfold srcError
  rw [Finset.sum_sub_distrib, ← Finset.sum_mul, sum_range_getD, hsum,
    sum_range_cast_cur w hN i, hmax, one_mul, sub_self]

lemma pickAt_err_ge (w : List ℚ) (i : ℕ) :
    ∀ j < w.length,
      srcError w (buildAux w i).current_samples i j
        ≤ srcError w (buildAux w i).current_samples i (pickAt w i) := by
  intro j hj
  rw [pickAt, pickIndex_eq_selectFold]
  exact selectFold_le _ _ _ j hj

lemma pickAt_err_nonneg (w : List ℚ) (hN : 0 < w.length) (hsum : w.sum = 1)
    (i : ℕ) (hi : 1 ≤ i) :
    0 ≤ srcError w (buildAux w i).current_samples i (pickAt w i) := by
  by_contra h
  push_neg at h
  have hall : ∀ j ∈ Finset.range w.length,
      srcError w (buildAux w i).current_samples i j < 0 := fun j hj =>
    lt_of_le_of_lt (pickAt_err_ge w i j (Finset.mem_range.mp hj)) h
  have hne : (Finset.range w.length).Nonempty :=
    ⟨0, Finset.mem_range.mpr hN⟩
  have hlt : ∑ j in Finset.range w.length,
      srcError w (buildAux w i).current_samples i j < 0 :=
    Finset.sum_neg hall hne
  rw [srcError_sum_zero w hN hsum i hi] at hlt
  exact lt_irrefl 0 hlt

/-! ### The discrepancy invariant: over-allocation is below one -/

lemma cur_le_target (w : List ℚ) (hN : 0 < w.length) (hnn : ∀ x ∈ w, 0 ≤ x)
    (hsum : w.sum = 1) (i k : ℕ) (hk : k < w.length) :
    ((buildAux w i).current_samples.getD k 0 : ℚ)
      ≤ w.getD k 0 * i + (1 - w.getD k 0) := by
  induction i with
  | zero =>
      have h0 : (buildAux w 0).current_samples.getD k 0 = 0 := getD_replicate_zero _ _
      rw [h0]
      have h1 : w.getD k 0 ≤ 1 := getD_le_one w hnn hsum k hk
      push_cast
      linarith
  | succ i ih =>
      have hplt : pickAt w i < (buildAux w i).current_samples.length := by
        rw [buildAux_cur_length]; exact pickAt_lt w hN i
      have hwk0 : 0 ≤ w.getD k 0 :=
        hnn _ (getD_mem_of_lt w k hk 0)
      by_cases hkp : k = pickAt w i
      · subst hkp
        rw [buildAux_cur_succ, getD_set_self _ _ _ hplt]
        have hcle : ((buildAux w i).current_samples.getD (pickAt w i) 0 : ℚ)
            ≤ w.getD (pickAt w i) 0 * i := by
          cases Nat.eq_zero_or_pos i with
          | inl h0 =>
              subst h0
              have h00 : (buildAux w 0).current_samples.getD (pickAt w 0) 0 = 0 :=
                getD_replicate_zero _ _
              rw [h00]
              push_cast
              simp
          | inr hpos =>
              have herr := pickAt_err_nonneg w hN hsum i hpos
              rw [srcError] at herr
              have hmax : max (i : ℚ) 1 = (i : ℚ) := max_eq_left (by exact_mod_cast hpos)
              rw [hmax] at herr
              linarith
        have hexp : w.getD (pickAt w i) 0 * ((i : ℚ) + 1)
            = w.getD (pickAt w i) 0 * (i : ℚ) + w.getD (pickAt w i) 0 := by ring
        push_cast
        linarith
      · rw [buildAux_cur_succ, getD_set_ne _ _ _ _ hkp]
        have hstep : w.getD k 0 * i ≤ w.getD k 0 * (i + 1) := by
          have : (i : ℚ) ≤ (i : ℚ) + 1 := by linarith
          exact mul_le_mul_of_nonneg_left this hwk0
        push_cast
        push_cast at ih
        linarith

lemma count_le_target (w : List ℚ) (hN : 0 < w.length) (hnn : ∀ x ∈ w, 0 ≤ x)
    (hsum : w.sum = 1) (i k : ℕ) (hk : k < w.length) :
    (((buildAux w i).dataset_index.count k : ℕ) : ℚ)
      ≤ w.getD k 0 * i + (1 - w.getD k 0) := by
  rw [← buildAux_cur_count w hN i k]
  exact cur_le_target w hN hnn hsum i k hk

lemma count_ge_target (w : List ℚ) (hN : 0 < w.length) (hnn : ∀ x ∈ w, 0 ≤ x)
    (hsum : w.sum = 1) (i k : ℕ) (hk : k < w.length) :
    w.getD k 0 * i - ((w.length : ℚ) - 1)
      ≤ (((buildAux w i).dataset_index.count k : ℕ) : ℚ) := by
  have hkmem : k ∈ Finset.range w.length := Finset.mem_range.mpr hk
  have hsplit :
      ∑ j in (Finset.range w.length).erase k,
          ((buildAux w i).current_samples.getD j 0 : ℚ)
        + ((buildAux w i).current_samples.getD k 0 : ℚ) = (i : ℚ) := by
    rw [Finset.sum_erase_add _ _ hkmem]
    exact sum_range_cast_cur w hN i
  have hwsplit :
      ∑ j in (Finset.range w.length).erase k, w.getD j 0 + w.getD k 0 = 1 := by
    rw [Finset.sum_erase_add _ _ hkmem, ← hsum, ← sum_range_getD]
  have hbound :
      ∑ j in (Finset.range w.length).erase k,
          ((buildAux w i).current_samples.getD j 0 : ℚ)
        ≤ ∑ j in (Finset.range w.length).erase k,
            (w.getD j 0 * i + (1 - w.getD j 0)) := by
    refine Finset.sum_le_sum fun j hj => ?_
    exact cur_le_target w hN hnn hsum i j
      (Finset.mem_range.mp (Finset.mem_of_mem_erase hj))
  have hcard : ((Finset.range w.length).erase k).card = w.length - 1 := by
    rw [Finset.card_erase_of_mem hkmem, Finset.card_range]
  have hcardq : (((Finset.range w.length).erase k).card : ℚ) = (w.length : ℚ) - 1 := by
    rw [hcard, Nat.cast_sub hN, Nat.cast_one]
  have hrhs :
      ∑ j in (Finset.range w.length).erase k, (w.getD j 0 * i + (1 - w.getD j 0))
        = (∑ j in (Finset.range w.length).erase k, w.getD j 0) * i
          + (((w.length : ℚ) - 1)
              - ∑ j in (Finset.range w.length).erase k, w.getD j 0) := by
    rw [Finset.sum_add_distrib, ← Finset.sum_mul]
    rw [Finset.sum_sub_distrib, Finset.sum_const, nsmul_eq_mul, mul_one, hcardq]
  have hwk1 : w.getD k 0 ≤ 1 := getD_le_one w hnn hsum k hk
  rw [← buildAux_cur_count w hN i k]
  have hfin := hbound
  rw [hrhs] at hfin
  have hw' : ∑ j in (Finset.range w.length).erase k, w.getD j 0 = 1 - w.getD k 0 := by
    linarith
  rw [hw'] at hfin
  nlinarith [hfin, hsplit]

/-! ### Equivalence of the rational and scaled-integer builders -/

lemma getD_map_div (nums : List ℤ) (D : ℚ) (k : ℕ) :
    (nums.map (fun n : ℤ => (n : ℚ) / D)).getD k 0 = ((nums.getD k 0 : ℤ) : ℚ) / D := by
  cases Nat.lt_or_ge k nums.length with
  | inl h =>
      rw [List.getD_eq_getElem _ _ (by simpa using h), List.getElem_map,
        List.getD_eq_getElem _ _ h]
  | inr h =>
      rw [List.getD_eq_default _ _ (by simpa using h), List.getD_eq_default _ _ h]
      simp

lemma srcError_scaled (nums : List ℤ) (D : ℤ) (hD : 0 < D)
    (current_samples : List ℕ) (i k : ℕ) :
    srcError (nums.map (fun n : ℤ => (n : ℚ) / (D : ℚ))) current_samples i k
      = (srcErrorZ nums D current_samples i k : ℚ) / (D : ℚ) := by
  have hD0 : (D : ℚ) ≠ 0 := by
    exact_mod_cast hD.ne'
  rw [srcError, srcErrorZ, getD_map_div]
  push_cast
  field_simp
  ring

lemma srcError_lt_iff (nums : List ℤ) (D : ℤ) (hD : 0 < D)
    (current_samples : List ℕ) (i j k : ℕ) :
    srcError (nums.map (fun n : ℤ => (n : ℚ) / (D : ℚ))) current_samples i j
        < srcError (nums.map (fun n : ℤ => (n : ℚ) / (D : ℚ))) current_samples i k
      ↔ srcErrorZ nums D current_samples i j < srcErrorZ nums D current_samples i k := by
  rw [srcError_scaled nums D hD, srcError_scaled nums D hD,
    div_lt_div_iff_of_pos_right (by exact_mod_cast hD)]
  exact Int.cast_lt

lemma pickIndex_fst_eq_pickIndexZ (nums : List ℤ) (D : ℤ) (hD : 0 < D)
    (current_samples : List ℕ) (i : ℕ) :
    (pickIndex (nums.map (fun n : ℤ => (n : ℚ) / (D : ℚ))) current_samples i).1
      = pickIndexZ nums D current_samples i := by
  rw [pickIndex_eq_selectFold, pickIndexZ_eq_selectFold, List.length_map]
  exact selectFold_congr _ _
    (fun j k => srcError_lt_iff nums D hD current_samples i j k) _ _

lemma buildStep_eq_buildStepZ (nums : List ℤ) (D : ℤ) (hD : 0 < D)
    (st : BuildState) (i : ℕ) :
    buildStep (nums.map (fun n : ℤ => (n : ℚ) / (D : ℚ))) st i = buildStepZ nums D st i := by
  simp only [buildStep, buildStepZ,
    pickIndex_fst_eq_pickIndexZ nums D hD st.current_samples i]

lemma buildAux_eq_buildAuxZ (nums : List ℤ) (D : ℤ) (hD : 0 < D) (i : ℕ) :
    buildAux (nums.map (fun n : ℤ => (n : ℚ) / (D : ℚ))) i = buildAuxZ nums D i := by
  induction i with
  | zero =>
      show BuildState.mk _ _ _ = BuildState.mk _ _ _
      rw [List.length_map]
  | succ i ih =>
      show buildStep _ (buildAux _ i) i = buildStepZ nums D (buildAuxZ nums D i) i
      rw [ih, buildStep_eq_buildStepZ nums D hD]

lemma build_blending_indices_eq_buildAuxZ (nums : List ℤ) (D : ℤ) (hD : 0 < D) (size : ℕ) :
    build_blending_indices (nums.map (fun n : ℤ => (n : ℚ) / (D : ℚ))) size
      = buildAuxZ nums D size :=
  buildAux_eq_buildAuxZ nums D hD size

/-! ### Statement-level vocabulary -/

/-- The greedy error term as the spec phrases it: the weight of source `j`
times `max(i, 1)`, minus the number of picks of `j` among the first `i`
positions of the recorded index array.  (`buildAux_cur_count` shows this
agrees with the code's `srcError` over the live counters.) -/
def specGreedyErr (w : List ℚ) (di : List ℕ) (i j : ℕ) : ℚ :=
  w.getD j 0 * max (i : ℚ) 1 - ((di.take i).count j : ℚ)

lemma specGreedyErr_eq (w : List ℚ) (S i : ℕ) (hN : 0 < w.length) (hiS : i ≤ S) (j : ℕ) :
    specGreedyErr w (buildAux w S).dataset_index i j
      = srcError w (buildAux w i).current_samples i j := by
  rw [specGreedyErr, srcError, buildAux_di_take w i S hiS,
    ← buildAux_cur_count w hN i j]

lemma pickAt_err_lt_of_lt (w : List ℚ) (i : ℕ) :
    ∀ j < pickAt w i,
      srcError w (buildAux w i).current_samples i j
        < srcError w (buildAux w i).current_samples i (pickAt w i) := by
  have h := selectFold_lt_of_lt (srcError w (buildAux w i).current_samples i) w.length
  rw [pickAt, pickIndex_eq_selectFold]
  exact h

/-! ### Claim theorems -/

/-- C2: at every virtual position `i < S` the builder records in
`dataset_index[i]` the lowest index attaining the largest error
`weights[j] * max(i,1) - (number of prior picks of j)`, records in
`sample_index[i]` the number of prior picks of that source, and the recorded
source index is always below `N = weights.length`. -/
theorem claim_C2_greedy_argmax_step (w : List ℚ) (S : ℕ) (hN : 0 < w.length)
    (i : ℕ) (hi : i < S) :
    (build_blending_indices w S).dataset_index.getD i 0 < w.length ∧
    (∀ j < w.length,
      specGreedyErr w (build_blending_indices w S).dataset_index i j
        ≤ specGreedyErr w (build_blending_indices w S).dataset_index i
            ((build_blending_indices w S).dataset_index.getD i 0)) ∧
    (∀ j < (build_blending_indices w S).dataset_index.getD i 0,
      specGreedyErr w (build_blending_indices w S).dataset_index i j
        < specGreedyErr w (build_blending_indices w S).dataset_index i
            ((build_blending_indices w S).dataset_index.getD i 0)) ∧
    (build_blending_indices w S).dataset_sample_index.getD i 0
      = ((build_blending_indices w S).dataset_index.take i).count
          ((build_blending_indices w S).dataset_index.getD i 0) := by
  have hdi : (build_blending_indices w S).dataset_index.getD i 0 = pickAt w i :=
    buildAux_di_getD_stable w i S hi
  refine ⟨?_, ?_, ?_, ?_⟩
  · rw [hdi]; exact pickAt_lt w hN i
  · intro j hj
    rw [hdi, build_blending_indices, specGreedyErr_eq w S i hN (le_of_lt hi) j,
      specGreedyErr_eq w S i hN (le_of_lt hi) (pickAt w i)]
    exact pickAt_err_ge w i j hj
  · intro j hj
    rw [hdi] at hj
    rw [hdi, build_blending_indices, specGreedyErr_eq w S i hN (le_of_lt hi) j,
      specGreedyErr_eq w S i hN (le_of_lt hi) (pickAt w i)]
    exact pickAt_err_lt_of_lt w i j hj
  · rw [hdi, build_blending_indices, buildAux_si_getD_stable w i S hi,
      buildAux_di_take w i S (le_of_lt hi), ← buildAux_cur_count w hN i (pickAt w i)]

/-- C2 witness at `w = [1]`, `S = 1`, `i = 0`. -/
theorem claim_C2_greedy_argmax_step_witness :
    (0 < ([(1 : ℚ)] : List ℚ).length ∧ (0 : ℕ) < 1) ∧
    ((build_blending_indices [(1 : ℚ)] 1).dataset_index.getD 0 0 < ([(1 : ℚ)] : List ℚ).length ∧
     (∀ j < ([(1 : ℚ)] : List ℚ).length,
       specGreedyErr [(1 : ℚ)] (build_blending_indices [(1 : ℚ)] 1).dataset_index 0 j
         ≤ specGreedyErr [(1 : ℚ)] (build_blending_indices [(1 : ℚ)] 1).dataset_index 0
             ((build_blending_indices [(1 : ℚ)] 1).dataset_index.getD 0 0)) ∧
     (∀ j < (build_blending_indices [(1 : ℚ)] 1).dataset_index.getD 0 0,
       specGreedyErr [(1 : ℚ)] (build_blending_indices [(1 : ℚ)] 1).dataset_index 0 j
         < specGreedyErr [(1 : ℚ)] (build_blending_indices [(1 : ℚ)] 1).dataset_index 0
             ((build_blending_indices [(1 : ℚ)] 1).dataset_index.getD 0 0)) ∧
     (build_blending_indices [(1 : ℚ)] 1).dataset_sample_index.getD 0 0
       = ((build_blending_indices [(1 : ℚ)] 1).dataset_index.take 0).count
           ((build_blending_indices [(1 : ℚ)] 1).dataset_index.getD 0 0)) :=
  ⟨⟨by decide, by decide⟩, claim_C2_greedy_argmax_step [(1 : ℚ)] 1 (by decide) 0 (by decide)⟩

/-- C1 (amended): for nonnegative weights summing to one, the per-source
counts over `dataset_index` sum to `S`; at every prefix length `P` every
source's count exceeds its target `weight[k] * P` by at most `1`, and falls
short of it by at most `N - 1`.  The symmetric within-one bound of the
original claim is refuted by `claim_C1_counterexample`. -/
theorem claim_C1_amended_coverage_bounds (w : List ℚ) (S : ℕ) (hN : 0 < w.length)
    (hnn : ∀ x ∈ w, 0 ≤ x) (hsum : w.sum = 1) :
    (∑ k in Finset.range w.length,
        (build_blending_indices w S).dataset_index.count k = S) ∧
    (∀ P, P ≤ S → ∀ k, k < w.length →
      ((((build_blending_indices w S).dataset_index.take P).count k : ℚ)
          ≤ w.getD k 0 * P + 1
        ∧ w.getD k 0 * P - ((w.length : ℚ) - 1)
          ≤ (((build_blending_indices w S).dataset_index.take P).count k : ℚ))) := by
  constructor
  · have h1 : ∀ k, (buildAux w S).current_samples.getD k 0
        = (buildAux w S).dataset_index.count k := buildAux_cur_count w hN S
    have h2 : ∑ k in Finset.range w.length,
        (build_blending_indices w S).dataset_index.count k
          = ∑ k in Finset.range w.length, (buildAux w S).current_samples.getD k 0 :=
      Finset.sum_congr rfl (fun k _ => (h1 k).symm)
    rw [h2, ← buildAux_cur_length w S, sum_range_getD]
    exact buildAux_cur_sum w hN S
  · intro P hP k hk
    rw [build_blending_indices, buildAux_di_take w P S hP]
    have hw0 : 0 ≤ w.getD k 0 := hnn _ (getD_mem_of_lt w k hk 0)
    constructor
    · have h := count_le_target w hN hnn hsum P k hk
      linarith
    · exact count_ge_target w hN hnn hsum P k hk

/-- C1 witness at `w = [1]`, `S = 2`. -/
theorem claim_C1_amended_coverage_bounds_witness :
    (0 < ([(1 : ℚ)] : List ℚ).length ∧ (∀ x ∈ ([(1 : ℚ)] : List ℚ), 0 ≤ x) ∧
      ([(1 : ℚ)] : List ℚ).sum = 1) ∧
    ((∑ k in Finset.range ([(1 : ℚ)] : List ℚ).length,
        (build_blending_indices [(1 : ℚ)] 2).dataset_index.count k = 2) ∧
     (∀ P, P ≤ 2 → ∀ k, k < ([(1 : ℚ)] : List ℚ).length →
       ((((build_blending_indices [(1 : ℚ)] 2).dataset_index.take P).count k : ℚ)
           ≤ ([(1 : ℚ)] : List ℚ).getD k 0 * P + 1
         ∧ ([(1 : ℚ)] : List ℚ).getD k 0 * P - ((([(1 : ℚ)] : List ℚ).length : ℚ) - 1)
           ≤ (((build_blending_indices [(1 : ℚ)] 2).dataset_index.take P).count k : ℚ)))) :=
  ⟨⟨by decide, by simp, by simp⟩,
    claim_C1_amended_coverage_bounds [(1 : ℚ)] 2 (by decide) (by simp) (by simp)⟩

/-- C1 counterexample: for the normalized weight vector
`[49/53, 1/53, 1/53, 1/53, 1/53]` and `S = 33`, source `0` receives `29`
virtual slots while its target is `49/53 * 33 = 1617/53 ≈ 30.51`: the count
misses the target by `80/53 > 1` and misses `round(weight * S) = 31` by `2`.
Hence neither the rounded within-one bound at `S` nor the within-one prefix
bound of the claim holds. -/
theorem claim_C1_counterexample :
    ¬ (∀ k < ([49/53, 1/53, 1/53, 1/53, 1/53] : List ℚ).length,
        |(((build_blending_indices [49/53, 1/53, 1/53, 1/53, 1/53] 33).dataset_index.count k : ℤ))
            - round (([49/53, 1/53, 1/53, 1/53, 1/53] : List ℚ).getD k 0 * 33)| ≤ 1) ∧
    ¬ (∀ k < ([49/53, 1/53, 1/53, 1/53, 1/53] : List ℚ).length,
        |(((build_blending_indices [49/53, 1/53, 1/53, 1/53, 1/53] 33).dataset_index.count k : ℚ))
            - ([49/53, 1/53, 1/53, 1/53, 1/53] : List ℚ).getD k 0 * 33| ≤ 1) := by
  have hw : ([49/53, 1/53, 1/53, 1/53, 1/53] : List ℚ)
      = ([49, 1, 1, 1, 1] : List ℤ).map (fun n : ℤ => (n : ℚ) / ((53 : ℤ) : ℚ)) := by
    norm_num
  have hcount : (build_blending_indices [49/53, 1/53, 1/53, 1/53, 1/53] 33).dataset_index.count 0
      = 29 := by
    rw [hw, build_blending_indices_eq_buildAuxZ _ _ (by norm_num)]
    decide
  have hg : ([49/53, 1/53, 1/53, 1/53, 1/53] : List ℚ).getD 0 0 = 49/53 := rfl
  constructor
  · intro h
    have h0 := h 0 (by norm_num)
    rw [hcount, hg] at h0
    have hr : round ((49 : ℚ)/53 * 33) = 31 := by
      rw [show ((49 : ℚ)/53 * 33) = 1617/53 by norm_num, round_eq,
        show (1617 : ℚ)/53 + 1/2 = 3287/106 by norm_num]
      rw [Int.floor_eq_iff]
      constructor <;> norm_num
    rw [hr] at h0
    exact absurd h0 (by decide)
  · intro h
    have h0 := h 0 (by norm_num)
    rw [hcount, hg] at h0
    rw [abs_le] at h0
    have hlt : ¬ (-1 ≤ ((29 : ℕ) : ℚ) - 49/53 * 33) := by norm_num
    exact hlt h0.1

/-- C7: with two equal weights `1/2, 1/2` and total size `4` the builder
produces `dataset_index = [0, 1, 0, 1]`: at `i = 0` both errors equal the
weight and the lowest index wins the tie, after which picks alternate. -/
theorem claim_C7_equal_weights_alternate :
    (build_blending_indices [1/2, 1/2] 4).dataset_index = [0, 1, 0, 1] := by
  have hw : ([1/2, 1/2] : List ℚ)
      = ([1, 1] : List ℤ).map (fun n : ℤ => (n : ℚ) / ((2 : ℤ) : ℚ)) := by norm_num
  rw [hw, build_blending_indices_eq_buildAuxZ _ _ (by norm_num)]
  decide

/-- C4: normalization fails (the spec's `InvalidWeightError`, the code's
`assert sum > 0.0`) exactly when the raw weight sum is ≤ 0; otherwise it
returns each weight divided by the sum, with no other transformation, and the
result sums to exactly 1. -/
theorem claim_C4_normalize_weight (w : List ℚ) :
    (normalize_weight w = none ↔ w.sum ≤ 0) ∧
    (0 < w.sum →
      normalize_weight w = some (w.map (fun x => x / w.sum))
        ∧ (w.map (fun x => x / w.sum)).sum = 1) := by
  constructor
  · constructor
    · intro hn
      by_contra hs
      push_neg at hs
      simp only [normalize_weight, if_pos hs] at hn
      exact Option.noConfusion hn
    · intro hs
      simp only [normalize_weight, if_neg (not_lt.mpr hs)]
  · intro hs
    refine ⟨by simp only [normalize_weight, if_pos hs], ?_⟩
    have hsne : w.sum ≠ 0 := ne_of_gt hs
    have hmap : (w.map (fun x => x / w.sum)).sum = w.sum / w.sum := by
      simp only [div_eq_mul_inv]
      rw [List.sum_map_mul_right]
      congr 1
      exact congrArg List.sum (List.map_id' w)
    rw [hmap, div_self hsne]

/-- C4 witness at `w = [1]`. -/
theorem claim_C4_normalize_weight_witness :
    (0 < ([(1 : ℚ)] : List ℚ).sum) ∧
    (normalize_weight [(1 : ℚ)]
        = some (([(1 : ℚ)] : List ℚ).map (fun x => x / ([(1 : ℚ)] : List ℚ).sum))
      ∧ (([(1 : ℚ)] : List ℚ).map (fun x => x / ([(1 : ℚ)] : List ℚ).sum)).sum = 1) :=
  ⟨by simp, (claim_C4_normalize_weight [(1 : ℚ)]).2 (by simp)⟩

/-- C5: index building and lookup are deterministic: the builder applied
twice to the same weights and size yields identical arrays, and `getitem`
applied twice to the same blender and index yields the same result (both are
pure functions of their inputs). -/
theorem claim_C5_determinism (w : List ℚ) (S : ℕ) {α : Type} (b : DatasetBlender α) (i : ℤ) :
    (build_blending_indices w S).dataset_index
        = (build_blending_indices w S).dataset_index ∧
    (build_blending_indices w S).dataset_sample_index
        = (build_blending_indices w S).dataset_sample_index ∧
    b.getitem i = b.getitem i :=
  ⟨rfl, rfl, rfl⟩

/-- C8: supplying an explicit weight list whose length differs from the number
of datasets makes construction fail with the configuration error before any
index is built. -/
theorem claim_C8_weight_count_mismatch {α : Type} (datasets : List (List α)) (ws : List ℚ)
    (hmis : ws.length ≠ datasets.length) :
    initBlender datasets (some ws) = Except.error BlendError.configurationError := by
  simp only [initBlender]
  rw [if_neg (fun h => hmis h.symm)]

/-- C8 witness: one dataset, two weights. -/
theorem claim_C8_weight_count_mismatch_witness :
    (([(1 : ℚ), 1] : List ℚ).length ≠ ([[(1 : ℕ)]] : List (List ℕ)).length) ∧
    initBlender ([[(1 : ℕ)]] : List (List ℕ)) (some [1, 1])
      = Except.error BlendError.configurationError :=
  ⟨by decide, claim_C8_weight_count_mismatch _ _ (by decide)⟩

/-! ### Facts about successful construction -/

lemma normalize_weight_length {w nw : List ℚ} (h : normalize_weight w = some nw) :
    nw.length = w.length := by
  simp only [normalize_weight] at h
  by_cases hs : 0 < w.sum
  · rw [if_pos hs] at h
    rw [← Option.some.inj h, List.length_map]
  · rw [if_neg hs] at h
    exact Option.noConfusion h

lemma initBlender_ok {α : Type} {datasets : List (List α)} {weights? : Option (List ℚ)}
    {b : DatasetBlender α} (h : initBlender datasets weights? = Except.ok b) :
    ∃ nw : List ℚ, nw.length = datasets.length ∧
      b.datasets = datasets ∧
      b.size = (datasets.map List.length).sum ∧
      b.dataset_index = (build_blending_indices nw b.size).dataset_index ∧
      b.dataset_sample_index = (build_blending_indices nw b.size).dataset_sample_index := by
  simp only [initBlender] at h
  split at h
  · exact Except.noConfusion h
  · rename_i weights heq
    split at h
    · rename_i hlen
      split at h
      · rename_i nw hnorm
        have hb := Except.ok.inj h
        refine ⟨nw, ?_, ?_, ?_, ?_, ?_⟩
        · rw [normalize_weight_length hnorm]
          exact hlen.symm
        · rw [← hb]
        · rw [← hb]
        · rw [← hb]
        · rw [← hb]
      · exact Except.noConfusion h
    · exact Except.noConfusion h

/-- C6: whatever the weights argument (absent or any valid list), the length
of a successfully constructed blended view equals the sum of the source
lengths taken at construction time. -/
theorem claim_C6_length_invariant {α : Type} (datasets : List (List α))
    (weights? : Option (List ℚ)) (b : DatasetBlender α)
    (hb : initBlender datasets weights? = Except.ok b) :
    b.len = (datasets.map List.length).sum := by
  obtain ⟨nw, -, -, hsize, -, -⟩ := initBlender_ok hb
  exact hsize

/-- A concrete successful construction, used by several witnesses: one source
of length 2 with explicit weight `[1]`. -/
lemma initBlender_pair_eval :
    initBlender [[(30 : ℕ), 40]] (some [1])
      = Except.ok ⟨[[30, 40]], 2, [0, 0], [0, 1]⟩ := by
  simp only [initBlender]
  norm_num [normalize_weight, build_blending_indices, buildAux, buildStep, pickIndex,
    srcError, List.range_succ]

/-- C6 witness at the concrete construction. -/
theorem claim_C6_length_invariant_witness :
    initBlender [[(30 : ℕ), 40]] (some [1])
        = Except.ok ⟨[[30, 40]], 2, [0, 0], [0, 1]⟩ ∧
    (DatasetBlender.mk [[(30 : ℕ), 40]] 2 [0, 0] [0, 1]).len
        = (([[(30 : ℕ), 40]] : List (List ℕ)).map List.length).sum :=
  ⟨initBlender_pair_eval,
    claim_C6_length_invariant [[(30 : ℕ), 40]] (some [1]) _ initBlender_pair_eval⟩

/-- C3: for a constructed blended view and any `i` in `[0, S)`, the lookup
returns `source[dataset_index[i]][sample_index[i] mod max(L, 1)]` where `L` is
the length of that source, and `sample_index[i]` is exactly the number of
prior positions allocated to the same source — so a source of positive length
`L` receives, in allocation order, the cyclically repeating local indices
`0, 1, …, L-1, 0, 1, …`. -/
theorem claim_C3_lookup_modulo_cycle {α : Type} (datasets : List (List α))
    (weights? : Option (List ℚ)) (b : DatasetBlender α)
    (hb : initBlender datasets weights? = Except.ok b) (hN : 0 < datasets.length)
    (i : ℕ) (hi : i < b.size) :
    b.getitem (i : ℤ)
      = (datasets.getD (b.dataset_index.getD i 0) []).get?
          ((b.dataset_sample_index.getD i 0)
            % max (datasets.getD (b.dataset_index.getD i 0) []).length 1) ∧
    b.dataset_sample_index.getD i 0
      = (b.dataset_index.take i).count (b.dataset_index.getD i 0) := by
  obtain ⟨nw, hnwlen, hds, hsize, hdi, hsi⟩ := initBlender_ok hb
  have hNw : 0 < nw.length := by rw [hnwlen]; exact hN
  have hdilen : b.dataset_index.length = b.size := by
    rw [hdi, build_blending_indices, buildAux_di_length]
  have hsilen : b.dataset_sample_index.length = b.size := by
    rw [hsi, build_blending_indices, buildAux_si_length]
  have hklt : b.dataset_index.getD i 0 < datasets.length := by
    rw [← hnwlen, hdi, build_blending_indices, buildAux_di_getD_stable nw i b.size hi]
    exact pickAt_lt nw hNw i
  have hilen : i < b.dataset_index.length := by rw [hdilen]; exact hi
  have hilen' : i < b.dataset_sample_index.length := by rw [hsilen]; exact hi
  have hget1 : b.dataset_index.get? i = some (b.dataset_index.getD i 0) := by
    rw [List.get?_eq_getElem?, List.getElem?_eq_getElem hilen,
      List.getD_eq_getElem _ _ hilen]
  have hget2 : b.datasets.get? (b.dataset_index.getD i 0)
      = some (datasets.getD (b.dataset_index.getD i 0) []) := by
    rw [hds]
    rw [List.get?_eq_getElem?, List.getElem?_eq_getElem hklt,
      List.getD_eq_getElem _ _ hklt]
  have hget3 : b.dataset_sample_index.get? i = some (b.dataset_sample_index.getD i 0) := by
    rw [List.get?_eq_getElem?, List.getElem?_eq_getElem hilen',
      List.getD_eq_getElem _ _ hilen']
  constructor
  · have hresolve : b.getitem (i : ℤ) = b.resolve i := by
      simp only [DatasetBlender.getitem]
      rw [if_pos ⟨Int.natCast_nonneg i, by exact_mod_cast hi⟩, Int.toNat_natCast]
    rw [hresolve]
    simp only [DatasetBlender.resolve, hget1, hget2, hget3]
  · rw [hsi, hdi, build_blending_indices, buildAux_si_getD_stable nw i b.size hi,
      buildAux_di_getD_stable nw i b.size hi, buildAux_di_take nw i b.size (le_of_lt hi),
      ← buildAux_cur_count nw hNw i (pickAt nw i)]

/-- C3 witness at the concrete construction, position `i = 1`. -/
theorem claim_C3_lookup_modulo_cycle_witness :
    (0 < ([[(30 : ℕ), 40]] : List (List ℕ)).length ∧
      1 < (DatasetBlender.mk [[(30 : ℕ), 40]] 2 [0, 0] [0, 1]).size) ∧
    ((DatasetBlender.mk [[(30 : ℕ), 40]] 2 [0, 0] [0, 1]).getitem (1 : ℤ)
        = (([[(30 : ℕ), 40]] : List (List ℕ)).getD
            ((DatasetBlender.mk [[(30 : ℕ), 40]] 2 [0, 0] [0, 1]).dataset_index.getD 1 0)
            []).get?
            (((DatasetBlender.mk [[(30 : ℕ), 40]] 2 [0, 0] [0, 1]).dataset_sample_index.getD 1 0)
              % max (([[(30 : ℕ), 40]] : List (List ℕ)).getD
                  ((DatasetBlender.mk [[(30 : ℕ), 40]] 2 [0, 0] [0, 1]).dataset_index.getD 1 0)
                  []).length 1) ∧
     (DatasetBlender.mk [[(30 : ℕ), 40]] 2 [0, 0] [0, 1]).dataset_sample_index.getD 1 0
        = ((DatasetBlender.mk [[(30 : ℕ), 40]] 2 [0, 0] [0, 1]).dataset_index.take 1).count
            ((DatasetBlender.mk [[(30 : ℕ), 40]] 2 [0, 0] [0, 1]).dataset_index.getD 1 0)) :=
  ⟨⟨by decide, by decide⟩,
    claim_C3_lookup_modulo_cycle [[(30 : ℕ), 40]] (some [1]) _ initBlender_pair_eval
      (by decide) 1 (by decide)⟩

/-- C9 (amended): a lookup errors exactly for `idx < -S` or `idx ≥ S`; an
index in `[-S, 0)` is NOT an error but is silently mapped (Python/numpy
negative-index semantics) to position `idx + S`. -/
theorem claim_C9_amended_range_check {α : Type} (b : DatasetBlender α) :
    (∀ idx : ℤ, idx < -(b.size : ℤ) ∨ (b.size : ℤ) ≤ idx → b.getitem idx = none) ∧
    (∀ idx : ℤ, -(b.size : ℤ) ≤ idx → idx < 0 →
      b.getitem idx = b.getitem (idx + (b.size : ℤ))) := by
  constructor
  · intro idx h
    simp only [DatasetBlender.getitem]
    rw [if_neg (by omega), if_neg (by omega)]
  · intro idx h1 h2
    simp only [DatasetBlender.getitem]
    rw [if_neg (by omega), if_pos ⟨h1, h2⟩, if_pos (by omega)]

/-- C9 witness: a one-sample blender rejects `idx = 2` and maps `idx = -1`
like `-1 + S`. -/
theorem claim_C9_amended_range_check_witness :
    (((2 : ℤ) < -(((DatasetBlender.mk [[(5 : ℕ)]] 1 [0] [0]).size : ℕ) : ℤ)
        ∨ (((DatasetBlender.mk [[(5 : ℕ)]] 1 [0] [0]).size : ℕ) : ℤ) ≤ 2) ∧
      -(((DatasetBlender.mk [[(5 : ℕ)]] 1 [0] [0]).size : ℕ) : ℤ) ≤ -1 ∧ (-1 : ℤ) < 0) ∧
    (DatasetBlender.mk [[(5 : ℕ)]] 1 [0] [0]).getitem 2 = none ∧
    (DatasetBlender.mk [[(5 : ℕ)]] 1 [0] [0]).getitem (-1)
      = (DatasetBlender.mk [[(5 : ℕ)]] 1 [0] [0]).getitem
          (-1 + (((DatasetBlender.mk [[(5 : ℕ)]] 1 [0] [0]).size : ℕ) : ℤ)) :=
  ⟨⟨by decide, by decide, by decide⟩,
    (claim_C9_amended_range_check (DatasetBlender.mk [[(5 : ℕ)]] 1 [0] [0])).1 2 (by decide),
    (claim_C9_amended_range_check (DatasetBlender.mk [[(5 : ℕ)]] 1 [0] [0])).2 (-1)
      (by decide) (by decide)⟩

/-- C9 counterexample: on a constructed blender of size 2 the negative index
`-1` is not reported as an error; it silently resolves to the last sample. -/
theorem claim_C9_counterexample :
    (initBlender [[(30 : ℕ), 40]] (some [1])).map (fun b => b.getitem (-1))
      = Except.ok (some 40) := by
  rw [initBlender_pair_eval]
  rfl

/-- C10 (amended): with the weights argument absent, a nonempty list of
all-empty sources fails with `ZeroDivisionError` while deriving the automatic
weights; but an empty source list skips every division (the comprehension is
empty), reaches weight normalization, and fails with the weight-sum error
instead (see `claim_C10_counterexample`). -/
theorem claim_C10_amended_auto_weight_failure {α : Type} (datasets : List (List α))
    (hne : datasets ≠ []) (hall : ∀ d ∈ datasets, d.length = 0) :
    initBlender datasets none = Except.error BlendError.zeroDivisionError := by
  obtain ⟨d, t, rfl⟩ := List.exists_cons_of_ne_nil hne
  have hsize : ((d :: t).map List.length).sum = 0 := by
    apply List.sum_eq_zero
    intro x hx
    obtain ⟨a, ha, rfl⟩ := List.mem_map.mp hx
    exact hall a ha
  have hauto : autoWeights ((d :: t).map List.length) (((d :: t).map List.length).sum)
      = Except.error BlendError.zeroDivisionError := by
    rw [hsize]
    rfl
  simp only [initBlender, hauto]

/-- C10 witness: one empty source. -/
theorem claim_C10_amended_auto_weight_failure_witness :
    (([([] : List ℕ)] : List (List ℕ)) ≠ [] ∧
      ∀ d ∈ ([([] : List ℕ)] : List (List ℕ)), d.length = 0) ∧
    initBlender ([([] : List ℕ)] : List (List ℕ)) none
      = Except.error BlendError.zeroDivisionError :=
  ⟨⟨by simp, by simp⟩,
    claim_C10_amended_auto_weight_failure ([([] : List ℕ)]) (by simp) (by simp)⟩

/-- C10 counterexample: for an EMPTY source list with absent weights, the
automatic-weight comprehension performs no division at all, so construction
does not raise `ZeroDivisionError`; it reaches the weight-sum validation and
fails with the weight-sum error. -/
theorem claim_C10_counterexample :
    initBlender ([] : List (List ℕ)) none = Except.error BlendError.invalidWeightError
      ∧ initBlender ([] : List (List ℕ)) none ≠ Except.error BlendError.zeroDivisionError := by
  constructor
  · rfl
  · intro h
    exact BlendError.noConfusion (Except.error.inj h)

end Lassl
